import Mathlib

/-!
Verification development for the ralph JSONL stream parser
(`src/ralph/lib/parse_jsonl.py`).

The parser reads one JSON object per input line, extracts assistant text
according to a provider-specific adapter (codex / claude / pi), tracks a
completion marker ("promise") across fragments, tees raw lines to an
optional audit log, and at end of stream prints the cleaned completion
message and exits with a distinguished exit code.

Modelling conventions:
- JSON values (and the Python values flowing through the parser) are the
  inductive `JValue`; Python `None` and JSON `null` are both `JValue.null`.
- Python `dict.get` is modelled by `pyGet` / `pyGetD`; calling it on a
  non-dict raises `AttributeError` in Python, modelled as `Except.error ()`.
- Python truthiness is `JValue.truthy` / emptiness tests on `String`.
- `str.strip()` is `pyStrip` (Python's ASCII whitespace set),
  `old in s` is `strContains`, `s.replace(old, "")` is `strRemoveAll`,
  `"\n".join` is `joinWithNewline`.
- The input stream is a list of `InputLine`s: each line is either
  `malformed` (json.loads raises JSONDecodeError) or `decoded` with the
  parsed object; the raw line text is carried alongside.
-/

/-- JSON-ish values as produced by `json.loads` (plus Python `None`). -/
inductive JValue where
  | null
  | bool (b : Bool)
  | num (n : Int)
  | str (s : String)
  | arr (xs : List JValue)
  | obj (fields : List (String × JValue))

/-- Python truthiness of a decoded JSON value. -/
def JValue.truthy : JValue → Bool
  | .null => false
  | .bool b => b
  | .num n => n != 0
  | .str s => s != ""
  | .arr xs => !xs.isEmpty
  | .obj fs => !fs.isEmpty

/-- Python `value == someString` for a decoded JSON value: only a string
with the same contents compares equal. -/
def JValue.isStrEq : JValue → String → Bool
  | .str s, t => s = t
  | _, _ => false

/-- Whether a value is a JSON object (Python dict). -/
def JValue.isObj : JValue → Bool
  | .obj _ => true
  | _ => false

/-- Python `d.get(k)` (default `None`); raises AttributeError on a
non-dict receiver, modelled as `Except.error ()`. -/
def pyGet (v : JValue) (k : String) : Except Unit JValue :=
  match v with
  | .obj fs => .ok ((fs.lookup k).getD .null)
  | _ => .error ()

/-- Python `d.get(k, default)`; raises AttributeError on a non-dict. -/
def pyGetD (v : JValue) (k : String) (d : JValue) : Except Unit JValue :=
  match v with
  | .obj fs => .ok ((fs.lookup k).getD d)
  | _ => .error ()

/-- Python's whitespace characters for `str.strip()` (ASCII subset). -/
def isPySpace (c : Char) : Bool :=
  c = ' ' || c = '\t' || c = '\n' || c = '\r' || c = '\x0b' || c = '\x0c'

/-- Python `s.strip()`. -/
def pyStrip (s : String) : String :=
  String.mk (((s.data.dropWhile isPySpace).reverse.dropWhile isPySpace).reverse)

/-- Substring containment on character lists (`pat` occurs in the list). -/
def listContainsSub (pat : List Char) : List Char → Bool
  | [] => pat.isEmpty
  | c :: rest => pat.isPrefixOf (c :: rest) || listContainsSub pat rest

/-- Python `pat in s` (substring containment). -/
def strContains (s pat : String) : Bool :=
  listContainsSub pat.data s.data

/-- Leftmost, non-overlapping removal of every occurrence of `pat`,
with explicit fuel so the kernel can evaluate it; `fuel ≥ length` makes
the fuel-exhausted branch unreachable. -/
def removeAllFuel (pat : List Char) : Nat → List Char → List Char
  | _, [] => []
  | 0, xs => xs
  | fuel + 1, x :: xs =>
    if pat ≠ [] && pat.isPrefixOf (x :: xs) then
      removeAllFuel pat fuel (List.drop pat.length (x :: xs))
    else
      x :: removeAllFuel pat fuel xs

/-- Python `s.replace(pat, "")`. -/
def strRemoveAll (s pat : String) : String :=
  String.mk (removeAllFuel pat.data s.data.length s.data)

/-- Python `"\n".join(parts)`. -/
def joinWithNewline : List String → String
  | [] => ""
  | [x] => x
  | x :: rest => x ++ "\n" ++ joinWithNewline rest

/-- Inner key loop of `extract_text_from_blocks`: the first key among
`text_keys` whose value in the block is a non-blank string. -/
def blockText (fs : List (String × JValue)) : List String → Option String
  | [] => none
  | k :: rest =>
    match (fs.lookup k).getD .null with
    | .str v => if pyStrip v ≠ "" then some v else blockText fs rest
    | _ => blockText fs rest

/-- Whether a block passes the `allowed_types` filter: with no filter every
block passes, otherwise the block's `type` value must equal one of the
allowed strings. -/
def blockAllowed (fs : List (String × JValue)) : Option (List String) → Bool
  | none => true
  | some ts => ts.any (fun s => ((fs.lookup "type").getD .null).isStrEq s)

/-- The `parts` list accumulated by `extract_text_from_blocks` over a list
of blocks: non-dict blocks and filtered-out blocks are skipped, each kept
block contributes its first non-blank text value. -/
def blocksParts (allowed : Option (List String)) (keys : List String) :
    List JValue → List String
  | [] => []
  | b :: rest =>
    match b with
    | .obj fs =>
      if blockAllowed fs allowed then
        match blockText fs keys with
        | some t => t :: blocksParts allowed keys rest
        | none => blocksParts allowed keys rest
      else blocksParts allowed keys rest
    | _ => blocksParts allowed keys rest

/-- `extract_text_from_blocks(content, allowed_types, text_keys)`:
a list yields the newline-join of its parts (None if no parts), a plain
string is returned unchanged, anything else yields None. Never raises. -/
def extract_text_from_blocks (content : JValue) (allowed : Option (List String))
    (keys : List String) : Option String :=
  match content with
  | .arr blocks =>
    let parts := blocksParts allowed keys blocks
    if parts.isEmpty then none else some (joinWithNewline parts)
  | .str s => some s
  | _ => none

/-- `extract_text_from_message(message, require_role)`: optional role
filter, then block extraction over `message.content` with the "text"
type filter and the single "text" key. Calling `.get` on a non-dict
`message` raises. -/
def extract_text_from_message (message : JValue) (require_role : Option String) :
    Except Unit (Option String) := do
  let roleReq := require_role.getD ""
  if roleReq ≠ "" then
    let r ← pyGet message "role"
    if !(r.isStrEq roleReq) then
      return none
    else
      let c ← pyGet message "content"
      return extract_text_from_blocks c (some ["text"]) ["text"]
  else
    let c ← pyGet message "content"
    return extract_text_from_blocks c (some ["text"]) ["text"]

/-- `extract_text_codex(item)`: the item's direct `text` field when it is
a non-blank string, else block extraction over `item.content` with no
type filter and the ("text", "content") key pair. -/
def extract_text_codex (item : JValue) : Except Unit (Option String) := do
  let t ← pyGet item "text"
  match t with
  | .str s =>
    if pyStrip s ≠ "" then
      return some s
    else
      return extract_text_from_blocks (← pyGet item "content") none ["text", "content"]
  | _ => return extract_text_from_blocks (← pyGet item "content") none ["text", "content"]

/-- `extract_text_claude(obj)`. -/
def extract_text_claude (obj : JValue) : Except Unit (Option String) := do
  let message ← pyGetD obj "message" (.obj [])
  extract_text_from_message message none

/-- `extract_text_pi_message(message)`. -/
def extract_text_pi_message (message : JValue) : Except Unit (Option String) :=
  extract_text_from_message message (some "assistant")

/-- `is_codex_assistant_item(item)`: the item-level type is the first
truthy of `item_type`, `type`, `""`; assistant when it is
"assistant_message"/"agent_message", or "message" with role "assistant". -/
def is_codex_assistant_item (item : JValue) : Except Unit Bool := do
  let it1 ← pyGet item "item_type"
  let it2 ← pyGet item "type"
  let item_type := if it1.truthy then it1 else if it2.truthy then it2 else .str ""
  if item_type.isStrEq "assistant_message" || item_type.isStrEq "agent_message" then
    return true
  else if item_type.isStrEq "message" then
    let r ← pyGet item "role"
    return r.isStrEq "assistant"
  else
    return false

/-- `extract_codex_event_text(obj)`. -/
def extract_codex_event_text (obj : JValue) : Except Unit (Option String) := do
  let t ← pyGet obj "type"
  if !(t.isStrEq "item.completed") then
    return none
  let item ← pyGetD obj "item" (.obj [])
  let isAsst ← is_codex_assistant_item item
  if !isAsst then
    return none
  extract_text_codex item

/-- `extract_claude_event_text(obj)`. -/
def extract_claude_event_text (obj : JValue) : Except Unit (Option String) := do
  let t ← pyGet obj "type"
  if !(t.isStrEq "assistant") then
    return none
  extract_text_claude obj

/-- `extract_pi_event_text(obj)`. -/
def extract_pi_event_text (obj : JValue) : Except Unit (Option String) := do
  let t ← pyGet obj "type"
  if !(t.isStrEq "message_end") then
    return none
  let m ← pyGetD obj "message" (.obj [])
  extract_text_pi_message m

/-- `extract_nothing(_)`. -/
def extract_nothing (_ : JValue) : Except Unit (Option String) :=
  .ok none

/-- A provider's static configuration: the `PROVIDERS` table rows. -/
structure ProviderConfig where
  skip_event_types : List String
  accumulate_text : Bool
  extract_text : JValue → Except Unit (Option String)

/-- `PROVIDERS["codex"]`. -/
def codexProvider : ProviderConfig :=
  { skip_event_types := ["item.updated"]
    accumulate_text := false
    extract_text := extract_codex_event_text }

/-- `PROVIDERS["claude"]`. -/
def claudeProvider : ProviderConfig :=
  { skip_event_types := []
    accumulate_text := true
    extract_text := extract_claude_event_text }

/-- `PROVIDERS["pi"]`. -/
def piProvider : ProviderConfig :=
  { skip_event_types := ["message_update", "tool_execution_update"]
    accumulate_text := false
    extract_text := extract_pi_event_text }

/-- `DEFAULT_PROVIDER`. -/
def DEFAULT_PROVIDER : ProviderConfig :=
  { skip_event_types := []
    accumulate_text := false
    extract_text := extract_nothing }

/-- `PROVIDERS.get(provider, DEFAULT_PROVIDER)`. -/
def providerFor (name : String) : ProviderConfig :=
  if name = "codex" then codexProvider
  else if name = "claude" then claudeProvider
  else if name = "pi" then piProvider
  else DEFAULT_PROVIDER

/-- The parser's mutable state: `provider_state["accumulated_text"]`,
`completion_message`, and the audit-log contents (the list of raw lines
written to `raw_log_file`, in order). -/
structure ParserState where
  accumulated_text : String
  completion_message : Option String
  raw_log : List String
deriving DecidableEq, Repr

/-- The initial state. -/
def initState : ParserState :=
  { accumulated_text := "", completion_message := none, raw_log := [] }

/-- `record_completion(text)`: keeps the LAST truthy message. -/
def record_completion (st : ParserState) (text : Option String) : ParserState :=
  match text with
  | some t => if t ≠ "" then { st with completion_message := some t } else st
  | none => st

/-- The accumulator update inside `handle_extracted_text`:
`provider_state["accumulated_text"] += extracted + "\n"` when the
provider accumulates, a no-op otherwise. -/
def accumStep (cfg : ProviderConfig) (st : ParserState) (e : String) : ParserState :=
  if cfg.accumulate_text then
    { st with accumulated_text := st.accumulated_text ++ e ++ "\n" }
  else st

/-- `handle_extracted_text(extracted)`: append to the accumulator for
accumulating providers, then the two-tier marker check (fragment first,
then the accumulated text). -/
def handle_extracted_text (cfg : ProviderConfig) (promise : String)
    (st : ParserState) (extracted : Option String) : ParserState :=
  match extracted with
  | none => st
  | some e =>
    if e = "" then st
    else
      if promise ≠ "" && strContains e promise then
        record_completion (accumStep cfg st e) (some e)
      else if cfg.accumulate_text &&
          strContains (accumStep cfg st e).accumulated_text promise then
        record_completion (accumStep cfg st e) (some (accumStep cfg st e).accumulated_text)
      else accumStep cfg st e

/-- One input line: either `json.loads` fails (`malformed`) or succeeds
(`decoded`, carrying the decoded value); `raw` is the line text as read
from stdin. -/
inductive InputLine where
  | malformed (raw : String)
  | decoded (raw : String) (obj : JValue)

/-- The audit tee for a line that failed to decode: always written when
the log is open. -/
def teeMalformed (rawLogOn : Bool) (st : ParserState) (raw : String) : ParserState :=
  if rawLogOn then { st with raw_log := st.raw_log ++ [raw] } else st

/-- The audit tee for a decoded line: look up the event type (a `.get`
that raises on a non-dict), write the raw line unless the type is in the
provider's skip set. -/
def auditStep (cfg : ProviderConfig) (rawLogOn : Bool) (st : ParserState)
    (raw : String) (obj : JValue) : Except Unit ParserState :=
  if rawLogOn then
    match pyGetD obj "type" (.str "") with
    | .error _ => .error ()
    | .ok et =>
      if cfg.skip_event_types.any (fun s => et.isStrEq s) then .ok st
      else .ok { st with raw_log := st.raw_log ++ [raw] }
  else .ok st

/-- One iteration of the dispatch loop. `rawLogOn` models
`raw_log_file` being open. An `Except.error` result is a Python
exception escaping the loop body (AttributeError from `.get` on a
non-dict); it carries the state at the raise point, since the `finally`
block still runs on it. -/
def processLine (cfg : ProviderConfig) (promise : String) (rawLogOn : Bool)
    (st : ParserState) : InputLine → Except ParserState ParserState
  | .malformed raw =>
    if promise ≠ "" && strContains raw promise &&
        (teeMalformed rawLogOn st raw).completion_message = none then
      .ok (record_completion (teeMalformed rawLogOn st raw) (some raw))
    else
      .ok (teeMalformed rawLogOn st raw)
  | .decoded raw obj =>
    match auditStep cfg rawLogOn st raw obj with
    | .error _ => .error st
    | .ok st1 =>
      match cfg.extract_text obj with
      | .error _ => .error st1
      | .ok extracted => .ok (handle_extracted_text cfg promise st1 extracted)

/-- The dispatch loop over the whole stream. Returns the final state and
whether an exception aborted the loop (in which case the remaining lines
are never processed; the `finally` block runs either way). -/
def runLines (cfg : ProviderConfig) (promise : String) (rawLogOn : Bool) :
    ParserState → List InputLine → ParserState × Bool
  | st, [] => (st, false)
  | st, l :: rest =>
    match processLine cfg promise rawLogOn st l with
    | .ok st1 => runLines cfg promise rawLogOn st1 rest
    | .error st1 => (st1, true)

/-- What the `finally` block produces: the lines printed to stdout and
the process exit code. -/
structure FinalOutput where
  stdout : List String
  exit_code : Nat
deriving DecidableEq, Repr

/-- `f"--- final output | {m}:{s:02d} ---"`. -/
def headerString (elapsed : Nat) : String :=
  "--- final output | " ++ toString (elapsed / 60) ++ ":" ++
    (if elapsed % 60 < 10 then "0" else "") ++ toString (elapsed % 60) ++ " ---"

/-- The `finally` block (Final Output Formatter): clean the recorded
message, print the optional banner and the cleaned text, exit with the
completion exit code iff a (truthy) message was recorded. `elapsed` is
`max(0, int(time.time()) - run_start_epoch)`. -/
def finalOutput (promise : String) (completion_exit_code : Nat)
    (headerOn : Bool) (run_start_epoch : Nat) (elapsed : Nat)
    (msg : Option String) : FinalOutput :=
  match msg with
  | none => { stdout := [], exit_code := 0 }
  | some m =>
    if m = "" then { stdout := [], exit_code := 0 }
    else
      let cleaned := pyStrip (strRemoveAll m promise)
      let out :=
        if cleaned = "" then []
        else if headerOn && run_start_epoch ≠ 0 then
          ["", headerString elapsed, cleaned]
        else [cleaned]
      { stdout := out, exit_code := completion_exit_code }

/-- The whole program on one input stream: run the dispatch loop from the
initial state, then the `finally` block on the resulting state. -/
def runParser (providerName : String) (promise : String)
    (completion_exit_code : Nat) (rawLogOn : Bool) (headerOn : Bool)
    (run_start_epoch : Nat) (elapsed : Nat) (input : List InputLine) :
    ParserState × FinalOutput :=
  let cfg := providerFor providerName
  let st := (runLines cfg promise rawLogOn initState input).1
  (st, finalOutput promise completion_exit_code headerOn run_start_epoch elapsed
    st.completion_message)

/-- The default completion promise. -/
def defaultPromise : String := "<promise>DONE</promise>"

/-- A canonical Codex completed-assistant event carrying direct text `t`. -/
def mkCodexEvent (t : String) : JValue :=
  .obj [("type", .str "item.completed"),
        ("item", .obj [("item_type", .str "assistant_message"), ("text", .str t)])]

/-- A canonical Claude assistant event whose message content is a single
text block with text `t`. -/
def mkClaudeEvent (t : String) : JValue :=
  .obj [("type", .str "assistant"),
        ("message", .obj [("content",
          .arr [.obj [("type", .str "text"), ("text", .str t)]])])]

/-- A canonical pi message-end event from the assistant role with a single
text block with text `t`. -/
def mkPiEvent (t : String) : JValue :=
  .obj [("type", .str "message_end"),
        ("message", .obj [("role", .str "assistant"),
          ("content", .arr [.obj [("type", .str "text"), ("text", .str t)]])])]

/-- Spec-side reading (C7): the "item-level type" of a Codex item — the
first truthy of `item_type`, `type`, else the empty string. -/
def codexItemLevelType (gs : List (String × JValue)) : JValue :=
  if ((gs.lookup "item_type").getD .null).truthy then (gs.lookup "item_type").getD .null
  else if ((gs.lookup "type").getD .null).truthy then (gs.lookup "type").getD .null
  else .str ""

/-- Spec-side reading (C7): the item is an assistant message when its
item-level type is "assistant_message"/"agent_message", or is "message"
with role "assistant". -/
def codexQualifiesSpec (gs : List (String × JValue)) : Bool :=
  (codexItemLevelType gs).isStrEq "assistant_message" ||
    (codexItemLevelType gs).isStrEq "agent_message" ||
    ((codexItemLevelType gs).isStrEq "message" &&
      ((gs.lookup "role").getD .null).isStrEq "assistant")

/-- Spec-side reading (C7): a content block's text, read from either a
`text` or a `content` key, with no block-type filter; blank candidate
values contribute nothing. -/
def codexBlockTextSpec (b : JValue) : Option String :=
  match b with
  | .obj gs =>
    ["text", "content"].findSome? fun k =>
      match (gs.lookup k).getD .null with
      | .str v => if pyStrip v = "" then none else some v
      | _ => none
  | _ => none

/-- Spec-side reading (C7): joined content-block text (newline-join), a
plain string passed through, nothing otherwise. -/
def codexContentSpec (content : JValue) : Option String :=
  match content with
  | .str s => some s
  | .arr blocks =>
    if (blocks.filterMap codexBlockTextSpec) = [] then none
    else some (joinWithNewline (blocks.filterMap codexBlockTextSpec))
  | _ => none

/-- Spec-side reading (C7): the yielded text is the item's direct `text`
field when that is a non-blank string, else the joined content blocks. -/
def codexTextSpec (gs : List (String × JValue)) : Option String :=
  match (gs.lookup "text").getD .null with
  | .str t =>
    if pyStrip t = "" then codexContentSpec ((gs.lookup "content").getD .null)
    else some t
  | _ => codexContentSpec ((gs.lookup "content").getD .null)

/-- Claim-side reading (C8): the audit log should contain every malformed
line and every decoded line whose event type is not in the provider's
skip set, verbatim and in order. -/
def expectedAudit (cfg : ProviderConfig) : List InputLine → List String :=
  List.filterMap fun l =>
    match l with
    | .malformed raw => some raw
    | .decoded raw obj =>
      match pyGetD obj "type" (.str "") with
      | .error _ => none
      | .ok et =>
        if cfg.skip_event_types.any (fun s => et.isStrEq s) then none
        else some raw


/-- Whether an `Except` computation succeeded (a Python call that did not
raise). -/
def isOkE {ε α : Type} : Except ε α → Bool
  | .ok _ => true
  | .error _ => false

/-- Any recorded completion message is a non-empty string
(`record_completion` only stores truthy text). -/
def completionOk (st : ParserState) : Prop :=
  ∀ s, st.completion_message = some s → s ≠ ""

theorem completionOk_initState : completionOk initState := by
  intro s hs
  simp [initState] at hs

theorem accumStep_completion (cfg : ProviderConfig) (st : ParserState) (e : String) :
    (accumStep cfg st e).completion_message = st.completion_message := by
  simp only [accumStep]
  split <;> rfl

theorem accumStep_raw_log (cfg : ProviderConfig) (st : ParserState) (e : String) :
    (accumStep cfg st e).raw_log = st.raw_log := by
  simp only [accumStep]
  split <;> rfl

theorem teeMalformed_completion (rawLogOn : Bool) (st : ParserState) (raw : String) :
    (teeMalformed rawLogOn st raw).completion_message = st.completion_message := by
  simp only [teeMalformed]
  split <;> rfl

theorem teeMalformed_accum (rawLogOn : Bool) (st : ParserState) (raw : String) :
    (teeMalformed rawLogOn st raw).accumulated_text = st.accumulated_text := by
  simp only [teeMalformed]
  split <;> rfl

theorem teeMalformed_raw_log (rawLogOn : Bool) (st : ParserState) (raw : String) :
    (teeMalformed rawLogOn st raw).raw_log
      = st.raw_log ++ (if rawLogOn then [raw] else []) := by
  simp only [teeMalformed]
  split <;> simp

theorem record_completion_raw_log (st : ParserState) (t : Option String) :
    (record_completion st t).raw_log = st.raw_log := by
  cases t with
  | none => rfl
  | some v =>
    simp only [record_completion]
    split <;> rfl

theorem record_completion_accum (st : ParserState) (t : Option String) :
    (record_completion st t).accumulated_text = st.accumulated_text := by
  cases t with
  | none => rfl
  | some v =>
    simp only [record_completion]
    split <;> rfl

theorem record_completion_ne_none (st : ParserState) (t : Option String)
    (h : st.completion_message ≠ none) :
    (record_completion st t).completion_message ≠ none := by
  cases t with
  | none => exact h
  | some v =>
    simp only [record_completion]
    split
    · simp
    · exact h

/-- A recorded non-empty message is stored as-is. -/
theorem record_completion_some (st : ParserState) (v : String) (hv : v ≠ "") :
    record_completion st (some v) = { st with completion_message := some v } := by
  simp only [record_completion]
  exact if_pos hv

/-- `completionOk` only looks at the completion message. -/
theorem completionOk_ext {st1 st2 : ParserState}
    (h : st1.completion_message = st2.completion_message) (h2 : completionOk st2) :
    completionOk st1 :=
  fun s hs => h2 s (h ▸ hs)

theorem record_completion_completionOk (st : ParserState) (t : Option String)
    (h : completionOk st) : completionOk (record_completion st t) := by
  cases t with
  | none => exact h
  | some v =>
    simp only [record_completion]
    split
    · rename_i hv
      intro s hs
      simp only at hs
      injection hs with hsv
      exact hsv ▸ hv
    · exact h

theorem handle_raw_log (cfg : ProviderConfig) (promise : String)
    (st : ParserState) (ex : Option String) :
    (handle_extracted_text cfg promise st ex).raw_log = st.raw_log := by
  cases ex with
  | none => rfl
  | some e =>
    simp only [handle_extracted_text]
    split
    · rfl
    · split
      · rw [record_completion_raw_log, accumStep_raw_log]
      · split
        · rw [record_completion_raw_log, accumStep_raw_log]
        · rw [accumStep_raw_log]

theorem handle_completionOk (cfg : ProviderConfig) (promise : String)
    (st : ParserState) (ex : Option String) (h : completionOk st) :
    completionOk (handle_extracted_text cfg promise st ex) := by
  cases ex with
  | none => exact h
  | some e =>
    have ha : completionOk (accumStep cfg st e) :=
      completionOk_ext (accumStep_completion cfg st e) h
    simp only [handle_extracted_text]
    split
    · exact h
    · split
      · exact record_completion_completionOk _ _ ha
      · split
        · exact record_completion_completionOk _ _ ha
        · exact ha

theorem handle_ne_none (cfg : ProviderConfig) (promise : String)
    (st : ParserState) (ex : Option String) (h : st.completion_message ≠ none) :
    (handle_extracted_text cfg promise st ex).completion_message ≠ none := by
  cases ex with
  | none => exact h
  | some e =>
    have ha : (accumStep cfg st e).completion_message ≠ none := by
      rw [accumStep_completion]; exact h
    simp only [handle_extracted_text]
    split
    · exact h
    · split
      · exact record_completion_ne_none _ _ ha
      · split
        · exact record_completion_ne_none _ _ ha
        · exact ha

theorem auditStep_ok (cfg : ProviderConfig) (rawLogOn : Bool) (st : ParserState)
    (raw : String) (obj : JValue) (st1 : ParserState)
    (h : auditStep cfg rawLogOn st raw obj = .ok st1) :
    st1.completion_message = st.completion_message ∧
    st1.accumulated_text = st.accumulated_text ∧
    (st1.raw_log = st.raw_log ∨ st1.raw_log = st.raw_log ++ [raw]) := by
  simp only [auditStep] at h
  split at h
  · split at h
    · exact absurd h (by simp)
    · split at h
      · injection h with he
        subst he
        exact ⟨rfl, rfl, .inl rfl⟩
      · injection h with he
        subst he
        exact ⟨rfl, rfl, .inr rfl⟩
  · injection h with he
    subst he
    exact ⟨rfl, rfl, .inl rfl⟩

theorem processLine_completionOk (cfg : ProviderConfig) (promise : String)
    (rawLogOn : Bool) (st : ParserState) (l : InputLine) (h : completionOk st)
    (st1 : ParserState)
    (h1 : processLine cfg promise rawLogOn st l = .ok st1 ∨
          processLine cfg promise rawLogOn st l = .error st1) :
    completionOk st1 := by
  have htee : ∀ raw, completionOk (teeMalformed rawLogOn st raw) := fun raw =>
    completionOk_ext (teeMalformed_completion rawLogOn st raw) h
  cases l with
  | malformed raw =>
    simp only [processLine] at h1
    rcases h1 with h1 | h1
    · split at h1
      · injection h1 with he
        exact he ▸ record_completion_completionOk _ _ (htee raw)
      · injection h1 with he
        exact he ▸ htee raw
    · split at h1 <;> exact absurd h1 (by simp)
  | decoded raw obj =>
    simp only [processLine] at h1
    rcases hA : auditStep cfg rawLogOn st raw obj with u | stA
    · rw [hA] at h1
      simp only at h1
      rcases h1 with h1 | h1
      · exact absurd h1 (by simp)
      · injection h1 with he
        exact he ▸ h
    · rw [hA] at h1
      simp only at h1
      have hok : completionOk stA :=
        completionOk_ext (auditStep_ok cfg rawLogOn st raw obj stA hA).1 h
      rcases hE : cfg.extract_text obj with u | ex
      · rw [hE] at h1
        simp only at h1
        rcases h1 with h1 | h1
        · exact absurd h1 (by simp)
        · injection h1 with he
          exact he ▸ hok
      · rw [hE] at h1
        simp only at h1
        rcases h1 with h1 | h1
        · injection h1 with he
          exact he ▸ handle_completionOk cfg promise stA ex hok
        · exact absurd h1 (by simp)

theorem processLine_ne_none (cfg : ProviderConfig) (promise : String)
    (rawLogOn : Bool) (st : ParserState) (l : InputLine)
    (h : st.completion_message ≠ none) (st1 : ParserState)
    (h1 : processLine cfg promise rawLogOn st l = .ok st1 ∨
          processLine cfg promise rawLogOn st l = .error st1) :
    st1.completion_message ≠ none := by
  have htee : ∀ raw, (teeMalformed rawLogOn st raw).completion_message ≠ none :=
    fun raw => by rw [teeMalformed_completion]; exact h
  cases l with
  | malformed raw =>
    simp only [processLine] at h1
    rcases h1 with h1 | h1
    · split at h1
      · injection h1 with he
        exact he ▸ record_completion_ne_none _ _ (htee raw)
      · injection h1 with he
        exact he ▸ htee raw
    · split at h1 <;> exact absurd h1 (by simp)
  | decoded raw obj =>
    simp only [processLine] at h1
    rcases hA : auditStep cfg rawLogOn st raw obj with u | stA
    · rw [hA] at h1
      simp only at h1
      rcases h1 with h1 | h1
      · exact absurd h1 (by simp)
      · injection h1 with he
        exact he ▸ h
    · rw [hA] at h1
      simp only at h1
      have hok : stA.completion_message ≠ none := by
        rw [(auditStep_ok cfg rawLogOn st raw obj stA hA).1]; exact h
      rcases hE : cfg.extract_text obj with u | ex
      · rw [hE] at h1
        simp only at h1
        rcases h1 with h1 | h1
        · exact absurd h1 (by simp)
        · injection h1 with he
          exact he ▸ hok
      · rw [hE] at h1
        simp only at h1
        rcases h1 with h1 | h1
        · injection h1 with he
          exact he ▸ handle_ne_none cfg promise stA ex hok
        · exact absurd h1 (by simp)

theorem runLines_completionOk (cfg : ProviderConfig) (promise : String)
    (rawLogOn : Bool) :
    ∀ (input : List InputLine) (st : ParserState), completionOk st →
      completionOk (runLines cfg promise rawLogOn st input).1 := by
  intro input
  induction input with
  | nil => exact fun st h => h
  | cons l rest ih =>
    intro st h
    simp only [runLines]
    cases hp : processLine cfg promise rawLogOn st l with
    | ok st1 =>
      exact ih st1 (processLine_completionOk cfg promise rawLogOn st l h st1 (.inl hp))
    | error st1 =>
      exact processLine_completionOk cfg promise rawLogOn st l h st1 (.inr hp)

theorem runLines_ne_none (cfg : ProviderConfig) (promise : String)
    (rawLogOn : Bool) :
    ∀ (input : List InputLine) (st : ParserState), st.completion_message ≠ none →
      (runLines cfg promise rawLogOn st input).1.completion_message ≠ none := by
  intro input
  induction input with
  | nil => exact fun st h => h
  | cons l rest ih =>
    intro st h
    simp only [runLines]
    cases hp : processLine cfg promise rawLogOn st l with
    | ok st1 =>
      exact ih st1 (processLine_ne_none cfg promise rawLogOn st l h st1 (.inl hp))
    | error st1 =>
      exact processLine_ne_none cfg promise rawLogOn st l h st1 (.inr hp)

theorem finalOutput_exit_code (promise : String) (ec : Nat) (headerOn : Bool)
    (epoch elapsed : Nat) (msg : Option String)
    (h : ∀ s, msg = some s → s ≠ "") :
    (finalOutput promise ec headerOn epoch elapsed msg).exit_code
      = if msg = none then 0 else ec := by
  cases msg with
  | none => rfl
  | some m =>
    have hm : m ≠ "" := h m rfl
    simp only [finalOutput, if_neg hm]
    simp

/-- C1: the process exits with the configured completion exit code iff a
completion message was recorded at some point during the run (once
recorded, the message is never cleared, so "recorded at some point" is
the same as "recorded in the final state"), independent of whether the
marker-stripped, whitespace-trimmed text is empty; otherwise it exits 0. -/
theorem C1_exit_code_iff_completion_recorded (providerName promise : String)
    (ec : Nat) (rawLogOn headerOn : Bool) (epoch elapsed : Nat)
    (input : List InputLine) :
    ((runParser providerName promise ec rawLogOn headerOn epoch elapsed input).2.exit_code
      = if (runParser providerName promise ec rawLogOn headerOn epoch elapsed
            input).1.completion_message = none then 0 else ec)
    ∧ (∀ st : ParserState, st.completion_message ≠ none →
        (runLines (providerFor providerName) promise rawLogOn st
          input).1.completion_message ≠ none) := by
  constructor
  · have hOk : completionOk
        (runLines (providerFor providerName) promise rawLogOn initState input).1 :=
      runLines_completionOk _ _ _ input initState completionOk_initState
    simp only [runParser]
    exact finalOutput_exit_code promise ec headerOn epoch elapsed _ hOk
  · exact fun st h => runLines_ne_none _ _ _ input st h

/-- Witness for C1 at a concrete configuration: the empty stream exits 0,
and a state with a recorded completion keeps it recorded. -/
theorem C1_exit_code_iff_completion_recorded_witness :
    (runParser "codex" defaultPromise 10 false false 0 0 []).2.exit_code = 0 ∧
    (runLines (providerFor "codex") defaultPromise false
      { accumulated_text := "", completion_message := some "x", raw_log := [] }
      []).1.completion_message ≠ none := by
  have h := C1_exit_code_iff_completion_recorded "codex" defaultPromise 10
    false false 0 0 []
  constructor
  · rw [h.1]
    decide
  · exact h.2 _ (by decide)

theorem isPrefixOf_append_mono (p xs ys : List Char) (h : p.isPrefixOf xs = true) :
    p.isPrefixOf (xs ++ ys) = true := by
  rw [List.isPrefixOf_iff_prefix] at h ⊢
  exact h.trans (List.prefix_append xs ys)

theorem listContainsSub_append (pat xs ys : List Char)
    (h : listContainsSub pat xs = true) : listContainsSub pat (xs ++ ys) = true := by
  induction xs with
  | nil =>
    simp only [listContainsSub, List.isEmpty_iff] at h
    subst h
    cases ys with
    | nil => rfl
    | cons c cs => simp [listContainsSub, List.isPrefixOf]
  | cons c cs ih =>
    simp only [listContainsSub, Bool.or_eq_true] at h
    rcases h with h | h
    · simp only [List.cons_append, listContainsSub, Bool.or_eq_true]
      exact Or.inl (isPrefixOf_append_mono pat (c :: cs) ys h)
    · simp only [List.cons_append, listContainsSub, Bool.or_eq_true]
      exact Or.inr (ih h)

theorem strContains_append_left (a b p : String) (h : strContains a p = true) :
    strContains (a ++ b) p = true := by
  unfold strContains at h ⊢
  rw [show (a ++ b).data = a.data ++ b.data from rfl]
  exact listContainsSub_append p.data a.data b.data h

theorem append_newline_ne_empty (s : String) : s ++ "\n" ≠ "" := by
  intro h
  have hd : (s ++ "\n").data = ("" : String).data := by rw [h]
  rw [show (s ++ "\n").data = s.data ++ ['\n'] from rfl] at hd
  simp at hd

theorem strContains_empty_left (p : String) (h : strContains "" p = true) :
    p = "" := by
  unfold strContains at h
  rw [show ("" : String).data = [] from rfl] at h
  simp only [listContainsSub, List.isEmpty_iff] at h
  cases p with
  | mk data =>
    simp only at h
    subst h
    rfl

/-- A non-empty fragment containing the marker always (re)records itself:
the first tier of the marker check. -/
theorem handle_marker_records (cfg : ProviderConfig) (promise : String)
    (st : ParserState) (e : String) (hp : promise ≠ "") (he : e ≠ "")
    (hc : strContains e promise = true) :
    handle_extracted_text cfg promise st (some e)
      = { accumStep cfg st e with completion_message := some e } := by
  simp only [handle_extracted_text]
  rw [if_neg he]
  have hcond : (decide (promise ≠ "") && strContains e promise) = true := by
    simp [hp, hc]
  rw [if_pos hcond]
  exact record_completion_some _ _ he

theorem accumStep_true (cfg : ProviderConfig) (st : ParserState) (e : String)
    (h : cfg.accumulate_text = true) :
    accumStep cfg st e
      = { st with accumulated_text := st.accumulated_text ++ e ++ "\n" } := by
  simp [accumStep, h]

/-- A non-empty fragment without the marker, for an accumulating provider
whose updated buffer contains the marker, records the whole buffer:
the second tier of the marker check. -/
theorem handle_markerless_records (cfg : ProviderConfig) (promise : String)
    (st : ParserState) (e : String) (haccum : cfg.accumulate_text = true)
    (he : e ≠ "") (hne : strContains e promise = false)
    (hacc : strContains st.accumulated_text promise = true) :
    handle_extracted_text cfg promise st (some e)
      = { st with accumulated_text := st.accumulated_text ++ e ++ "\n",
                  completion_message := some (st.accumulated_text ++ e ++ "\n") } := by
  simp only [handle_extracted_text]
  rw [if_neg he]
  have hcond1 : ¬ ((decide (promise ≠ "") && strContains e promise) = true) := by
    simp [hne]
  rw [if_neg hcond1]
  rw [accumStep_true cfg st e haccum]
  have hacc2 : strContains (st.accumulated_text ++ e ++ "\n") promise = true :=
    strContains_append_left _ _ _ (strContains_append_left _ _ _ hacc)
  have hcond2 : (cfg.accumulate_text &&
      strContains ({ st with accumulated_text := st.accumulated_text ++ e ++ "\n"
        : ParserState }).accumulated_text promise) = true := by
    simp only [haccum, Bool.true_and]
    exact hacc2
  rw [if_pos hcond2]
  rw [record_completion_some _ _ (append_newline_ne_empty _)]

/-- C3: each qualifying extracted fragment that contains the marker
overwrites any previously recorded completion; handling two such
fragments in order leaves the later one recorded (last-match-wins). -/
theorem C3_last_match_wins (cfg : ProviderConfig) (promise : String)
    (st : ParserState) (e1 e2 : String) (hp : promise ≠ "")
    (h1 : e1 ≠ "") (h2 : e2 ≠ "")
    (hc1 : strContains e1 promise = true) (hc2 : strContains e2 promise = true) :
    (handle_extracted_text cfg promise st (some e1)).completion_message = some e1 ∧
    (handle_extracted_text cfg promise
        (handle_extracted_text cfg promise st (some e1))
        (some e2)).completion_message = some e2 := by
  constructor
  · rw [handle_marker_records cfg promise st e1 hp h1 hc1]
  · rw [handle_marker_records cfg promise _ e2 hp h2 hc2]

/-- Witness for C3 at concrete fragments "aM", "bM" with marker "M". -/
theorem C3_last_match_wins_witness :
    (handle_extracted_text codexProvider "M"
        (handle_extracted_text codexProvider "M" initState (some "aM"))
        (some "bM")).completion_message = some "bM" :=
  (C3_last_match_wins codexProvider "M" initState "aM" "bM" (by decide)
    (by decide) (by decide) (by decide) (by decide)).2

/-- Full case analysis of `handle_extracted_text` on a markerless fragment
for an accumulating provider: the buffer always grows, and the whole
buffer is recorded iff the marker occurs in the grown buffer. -/
theorem handle_markerless_general (cfg : ProviderConfig) (promise : String)
    (st : ParserState) (e : String) (haccum : cfg.accumulate_text = true)
    (he : e ≠ "") (hne : strContains e promise = false) :
    handle_extracted_text cfg promise st (some e)
      = if strContains (st.accumulated_text ++ e ++ "\n") promise then
          { st with accumulated_text := st.accumulated_text ++ e ++ "\n",
                    completion_message := some (st.accumulated_text ++ e ++ "\n") }
        else { st with accumulated_text := st.accumulated_text ++ e ++ "\n" } := by
  simp only [handle_extracted_text]
  rw [if_neg he]
  have hcond1 : ¬ ((decide (promise ≠ "") && strContains e promise) = true) := by
    simp [hne]
  rw [if_neg hcond1]
  rw [accumStep_true cfg st e haccum]
  dsimp only
  by_cases hb : strContains (st.accumulated_text ++ e ++ "\n") promise = true
  · rw [if_pos (by simp [haccum, hb])]
    rw [if_pos hb]
    exact record_completion_some _ _ (append_newline_ne_empty _)
  · rw [if_neg (by simp [haccum, hb])]
    rw [if_neg hb]

theorem extract_claude_mkEvent (t : String) (ht : pyStrip t ≠ "") :
    extract_claude_event_text (mkClaudeEvent t) = .ok (some t) := by
  simp [extract_claude_event_text, mkClaudeEvent, extract_text_claude,
    extract_text_from_message, extract_text_from_blocks, blocksParts, blockText,
    blockAllowed, pyGet, pyGetD, JValue.isStrEq, joinWithNewline, ht, List.lookup,
    Except.bind, bind, Except.map, Functor.map, pure, Except.pure]

theorem processLine_claude_mkEvent (st : ParserState) (promise t raw : String)
    (ht : pyStrip t ≠ "") :
    processLine claudeProvider promise false st (.decoded raw (mkClaudeEvent t))
      = .ok (handle_extracted_text claudeProvider promise st (some t)) := by
  simp only [processLine]
  have ha : auditStep claudeProvider false st raw (mkClaudeEvent t) = .ok st := rfl
  rw [ha]
  dsimp only
  have he : claudeProvider.extract_text (mkClaudeEvent t) = Except.ok (some t) :=
    extract_claude_mkEvent t ht
  rw [he]

theorem pyStrip_ne_imp_ne (t : String) (h : pyStrip t ≠ "") : t ≠ "" := by
  intro he
  apply h
  rw [he]
  rfl

/-- C4: for the accumulating claude provider, two sequential qualifying
assistant events whose individual texts each lack the marker but whose
in-order, newline-joined concatenation contains it yield a detected
completion equal to the full accumulated concatenation. -/
theorem C4_accumulation_detects_split_marker (promise t1 t2 r1 r2 : String)
    (hp : promise ≠ "") (h1 : pyStrip t1 ≠ "") (h2 : pyStrip t2 ≠ "")
    (hn1 : strContains t1 promise = false) (hn2 : strContains t2 promise = false)
    (hc : strContains (t1 ++ "\n" ++ t2 ++ "\n") promise = true) :
    (runLines claudeProvider promise false initState
        [.decoded r1 (mkClaudeEvent t1),
         .decoded r2 (mkClaudeEvent t2)]).1.completion_message
      = some (t1 ++ "\n" ++ t2 ++ "\n") := by
  have ht1 : t1 ≠ "" := pyStrip_ne_imp_ne t1 h1
  have ht2 : t2 ≠ "" := pyStrip_ne_imp_ne t2 h2
  have hsecond : ∀ st : ParserState, st.accumulated_text = t1 ++ "\n" →
      (handle_extracted_text claudeProvider promise st (some t2)).completion_message
        = some (t1 ++ "\n" ++ t2 ++ "\n") := by
    intro st hst
    rw [handle_markerless_general claudeProvider promise st t2 rfl ht2 hn2]
    rw [hst]
    rw [if_pos hc]
  have hacc1 : (handle_extracted_text claudeProvider promise initState
      (some t1)).accumulated_text = t1 ++ "\n" := by
    rw [handle_markerless_general claudeProvider promise initState t1 rfl ht1 hn1]
    split <;> rfl
  simp only [runLines]
  rw [processLine_claude_mkEvent initState promise t1 r1 h1]
  dsimp only
  rw [processLine_claude_mkEvent _ promise t2 r2 h2]
  dsimp only
  exact hsecond _ hacc1

/-- Witness for C4: marker "X\nY" split across fragments "aX" and "Yb". -/
theorem C4_accumulation_detects_split_marker_witness :
    (runLines claudeProvider "X\nY" false initState
        [.decoded "r1" (mkClaudeEvent "aX"),
         .decoded "r2" (mkClaudeEvent "Yb")]).1.completion_message
      = some "aX\nYb\n" := by
  have h := C4_accumulation_detects_split_marker "X\nY" "aX" "Yb" "r1" "r2"
    (by decide) (by decide) (by decide) (by decide) (by decide) (by decide)
  rw [h]
  rfl

/-- Counterexample to C9 as stated: with marker "M" and claude provider,
after the marker-bearing fragment "aM" is in the buffer, the subsequent
non-empty fragment "bM" overwrites the recorded completion with the
fragment itself ("bM"), not with the entire accumulated text "aM\nbM\n". -/
theorem C9_counterexample :
    ((runLines claudeProvider "M" false initState
        [.decoded "r1" (mkClaudeEvent "aM"),
         .decoded "r2" (mkClaudeEvent "bM")]).1.accumulated_text = "aM\nbM\n")
    ∧ ((runLines claudeProvider "M" false initState
        [.decoded "r1" (mkClaudeEvent "aM"),
         .decoded "r2" (mkClaudeEvent "bM")]).1.completion_message = some "bM")
    ∧ ((runLines claudeProvider "M" false initState
        [.decoded "r1" (mkClaudeEvent "aM"),
         .decoded "r2" (mkClaudeEvent "bM")]).1.completion_message
       ≠ some ((runLines claudeProvider "M" false initState
        [.decoded "r1" (mkClaudeEvent "aM"),
         .decoded "r2" (mkClaudeEvent "bM")]).1.accumulated_text)) := by
  refine ⟨by decide, by decide, by decide⟩

/-- C9 (amended): for an accumulating provider, once the marker is present
in the accumulated buffer, every subsequent non-empty fragment that does
not itself contain the marker overwrites the recorded completion with the
entire accumulated text; a subsequent fragment that does contain the
marker overwrites it with the fragment itself instead. -/
theorem C9_markerless_fragment_records_transcript (cfg : ProviderConfig)
    (promise e : String) (st : ParserState)
    (haccum : cfg.accumulate_text = true) (he : e ≠ "")
    (hne : strContains e promise = false)
    (hacc : strContains st.accumulated_text promise = true) :
    (handle_extracted_text cfg promise st (some e)
      = { st with accumulated_text := st.accumulated_text ++ e ++ "\n",
                  completion_message := some (st.accumulated_text ++ e ++ "\n") })
    ∧ (∀ e2, promise ≠ "" → e2 ≠ "" → strContains e2 promise = true →
        (handle_extracted_text cfg promise st (some e2)).completion_message
          = some e2) := by
  constructor
  · exact handle_markerless_records cfg promise st e haccum he hne hacc
  · intro e2 hp h2 hc2
    rw [handle_marker_records cfg promise st e2 hp h2 hc2]

/-- Witness for the amended C9: buffer "aM\n" holds marker "M"; the
markerless fragment "bb" records the whole transcript, while the
marker-bearing fragment "cM" records itself. -/
theorem C9_markerless_fragment_records_transcript_witness :
    (handle_extracted_text claudeProvider "M"
        { accumulated_text := "aM\n", completion_message := some "aM", raw_log := [] }
        (some "bb")
      = { accumulated_text := "aM\nbb\n", completion_message := some "aM\nbb\n",
          raw_log := [] })
    ∧ (handle_extracted_text claudeProvider "M"
        { accumulated_text := "aM\n", completion_message := some "aM", raw_log := [] }
        (some "cM")).completion_message = some "cM" := by
  have h := C9_markerless_fragment_records_transcript claudeProvider "M" "bb"
    { accumulated_text := "aM\n", completion_message := some "aM", raw_log := [] }
    (by decide) (by decide) (by decide) (by decide)
  constructor
  · rw [h.1]
    decide
  · exact h.2 "cM" (by decide) (by decide) (by decide)

/-- The malformed-line fast path records the raw line when it contains the
marker and nothing is recorded yet. -/
theorem processLine_malformed_records (cfg : ProviderConfig)
    (promise raw : String) (rawLogOn : Bool) (st : ParserState)
    (h0 : st.completion_message = none) (hp : promise ≠ "")
    (hc : strContains raw promise = true) :
    processLine cfg promise rawLogOn st (.malformed raw)
      = .ok { teeMalformed rawLogOn st raw with completion_message := some raw } := by
  have hraw : raw ≠ "" := by
    intro h
    rw [h] at hc
    exact hp (strContains_empty_left promise hc)
  simp only [processLine]
  rw [if_pos (by simp [hp, hc, teeMalformed_completion, h0])]
  rw [record_completion_some _ _ hraw]

/-- C5: a line that fails JSON decoding never raises and never aborts the
stream; when it contains the marker and no completion is recorded yet it
is recorded verbatim (and an already-recorded completion is left alone:
first match only on this path); a stream consisting of such a line exits
with the completion exit code and prints the line with the marker
stripped and whitespace trimmed. -/
theorem C5_malformed_line_fast_path (cfg : ProviderConfig)
    (promise raw : String) (rawLogOn : Bool) (st : ParserState) :
    (isOkE (processLine cfg promise rawLogOn st (.malformed raw)) = true)
    ∧ (st.completion_message = none → promise ≠ "" →
        strContains raw promise = true →
        processLine cfg promise rawLogOn st (.malformed raw)
          = .ok { teeMalformed rawLogOn st raw with completion_message := some raw })
    ∧ (∀ m, st.completion_message = some m →
        processLine cfg promise rawLogOn st (.malformed raw)
          = .ok (teeMalformed rawLogOn st raw))
    ∧ (∀ (name : String) (ec : Nat) (headerOn : Bool) (elapsed : Nat),
        promise ≠ "" → strContains raw promise = true →
        pyStrip (strRemoveAll raw promise) ≠ "" →
        (runParser name promise ec false headerOn 0 elapsed [.malformed raw]).2
          = { stdout := [pyStrip (strRemoveAll raw promise)], exit_code := ec }) := by
  refine ⟨?_, ?_, ?_, ?_⟩
  · simp only [processLine]
    split <;> rfl
  · intro h0 hp hc
    exact processLine_malformed_records cfg promise raw rawLogOn st h0 hp hc
  · intro m hm
    simp only [processLine]
    rw [if_neg (by simp [teeMalformed_completion, hm])]
  · intro name ec headerOn elapsed hp hc hcl
    have hraw : raw ≠ "" := by
      intro h
      rw [h] at hc
      exact hp (strContains_empty_left promise hc)
    simp only [runParser, runLines]
    rw [processLine_malformed_records (providerFor name) promise raw false
      initState rfl hp hc]
    dsimp only
    simp only [finalOutput]
    rw [if_neg hraw]
    rw [if_neg hcl]
    simp

/-- Witness for C5 at a concrete malformed line with the default marker. -/
theorem C5_malformed_line_fast_path_witness :
    isOkE (processLine codexProvider defaultPromise true initState
      (.malformed "oops <promise>DONE</promise>\n")) = true
    ∧ processLine codexProvider defaultPromise true initState
        (.malformed "oops <promise>DONE</promise>\n")
        = .ok { teeMalformed true initState "oops <promise>DONE</promise>\n" with
                completion_message := some "oops <promise>DONE</promise>\n" }
    ∧ (runParser "codex" defaultPromise 10 false true 0 0
        [.malformed "oops <promise>DONE</promise>\n"]).2
        = { stdout := [pyStrip (strRemoveAll "oops <promise>DONE</promise>\n"
              defaultPromise)], exit_code := 10 } := by
  have h := C5_malformed_line_fast_path codexProvider defaultPromise
    "oops <promise>DONE</promise>\n" true initState
  exact ⟨h.1, h.2.1 rfl (by decide) (by decide),
    h.2.2.2 "codex" 10 true 0 (by decide) (by decide) (by decide)⟩

theorem extract_codex_mkEvent (t : String) (ht : pyStrip t ≠ "") :
    extract_codex_event_text (mkCodexEvent t) = .ok (some t) := by
  simp [extract_codex_event_text, mkCodexEvent, is_codex_assistant_item,
    extract_text_codex, extract_text_from_blocks, pyGet, pyGetD, JValue.isStrEq,
    JValue.truthy, ht, List.lookup, Except.bind, bind, Except.map, Functor.map,
    pure, Except.pure]

theorem extract_pi_mkEvent (t : String) (ht : pyStrip t ≠ "") :
    extract_pi_event_text (mkPiEvent t) = .ok (some t) := by
  simp [extract_pi_event_text, mkPiEvent, extract_text_pi_message,
    extract_text_from_message, extract_text_from_blocks, blocksParts, blockText,
    blockAllowed, pyGet, pyGetD, JValue.isStrEq, joinWithNewline, ht, List.lookup,
    Except.bind, bind, Except.map, Functor.map, pure, Except.pure]

/-- A decoded line with the audit tee off reduces to extraction plus the
completion tracker. -/
theorem processLine_decoded_extracted (cfg : ProviderConfig) (promise : String)
    (st : ParserState) (raw : String) (obj : JValue) (ex : Option String)
    (hex : cfg.extract_text obj = .ok ex) :
    processLine cfg promise false st (.decoded raw obj)
      = .ok (handle_extracted_text cfg promise st ex) := by
  simp only [processLine]
  have ha : auditStep cfg false st raw obj = .ok st := rfl
  rw [ha]
  dsimp only
  rw [hex]

/-- A one-event stream whose extracted text contains the marker prints the
cleaned text and exits with the completion exit code. -/
theorem runParser_single_event (name promise : String) (ec : Nat)
    (headerOn : Bool) (elapsed : Nat) (raw t : String) (obj : JValue)
    (hex : (providerFor name).extract_text obj = .ok (some t))
    (ht : t ≠ "") (hp : promise ≠ "") (hc : strContains t promise = true)
    (hcl : pyStrip (strRemoveAll t promise) ≠ "") :
    (runParser name promise ec false headerOn 0 elapsed [.decoded raw obj]).2
      = { stdout := [pyStrip (strRemoveAll t promise)], exit_code := ec } := by
  simp only [runParser, runLines]
  rw [processLine_decoded_extracted (providerFor name) promise initState raw obj
    (some t) hex]
  dsimp only
  rw [handle_marker_records (providerFor name) promise initState t hp ht hc]
  dsimp only
  simp only [finalOutput]
  rw [if_neg ht, if_neg hcl]
  simp

/-- C6: for each known provider, a stream with exactly one qualifying
completed assistant event whose text contains the marker prints the text
with every marker occurrence removed and whitespace trimmed and exits
with the configured completion exit code; in particular the concrete
Codex input with default marker yields stdout "All done." and exit 10. -/
theorem C6_single_event_clean_output (promise : String) (ec : Nat)
    (headerOn : Bool) (elapsed : Nat) (raw t : String)
    (hst : pyStrip t ≠ "") (hp : promise ≠ "")
    (hc : strContains t promise = true)
    (hcl : pyStrip (strRemoveAll t promise) ≠ "") :
    ((runParser "codex" promise ec false headerOn 0 elapsed
        [.decoded raw (mkCodexEvent t)]).2
      = { stdout := [pyStrip (strRemoveAll t promise)], exit_code := ec })
    ∧ ((runParser "claude" promise ec false headerOn 0 elapsed
        [.decoded raw (mkClaudeEvent t)]).2
      = { stdout := [pyStrip (strRemoveAll t promise)], exit_code := ec })
    ∧ ((runParser "pi" promise ec false headerOn 0 elapsed
        [.decoded raw (mkPiEvent t)]).2
      = { stdout := [pyStrip (strRemoveAll t promise)], exit_code := ec })
    ∧ ((runParser "codex" defaultPromise 10 false true 0 0
        [.decoded "line" (mkCodexEvent "All done. <promise>DONE</promise>")]).2
      = { stdout := ["All done."], exit_code := 10 }) := by
  have ht : t ≠ "" := pyStrip_ne_imp_ne t hst
  refine ⟨?_, ?_, ?_, ?_⟩
  · exact runParser_single_event "codex" promise ec headerOn elapsed raw t
      (mkCodexEvent t) (extract_codex_mkEvent t hst) ht hp hc hcl
  · exact runParser_single_event "claude" promise ec headerOn elapsed raw t
      (mkClaudeEvent t) (extract_claude_mkEvent t hst) ht hp hc hcl
  · exact runParser_single_event "pi" promise ec headerOn elapsed raw t
      (mkPiEvent t) (extract_pi_mkEvent t hst) ht hp hc hcl
  · decide

/-- Witness for C6: the claude variant of the concrete scenario. -/
theorem C6_single_event_clean_output_witness :
    (runParser "claude" defaultPromise 10 false true 0 0
        [.decoded "r" (mkClaudeEvent "All done. <promise>DONE</promise>")]).2
      = { stdout := ["All done."], exit_code := 10 } := by
  have h := C6_single_event_clean_output defaultPromise 10 true 0 "r"
    "All done. <promise>DONE</promise>" (by decide) (by decide) (by decide)
    (by decide)
  rw [h.2.1]
  decide

theorem isObj_exists (v : JValue) (h : v.isObj = true) :
    ∃ gs, v = JValue.obj gs := by
  cases v <;> simp [JValue.isObj] at h ⊢

theorem extract_text_from_message_isOk (gs : List (String × JValue))
    (role : Option String) :
    isOkE (extract_text_from_message (JValue.obj gs) role) = true := by
  simp only [extract_text_from_message, pyGet, bind, Except.bind, pure, Except.pure]
  split
  · split <;> rfl
  · rfl

theorem is_codex_assistant_item_isOk (gs : List (String × JValue)) :
    isOkE (is_codex_assistant_item (JValue.obj gs)) = true := by
  simp only [is_codex_assistant_item, pyGet, bind, Except.bind, pure, Except.pure]
  repeat' split
  all_goals rfl

theorem extract_text_codex_isOk (gs : List (String × JValue)) :
    isOkE (extract_text_codex (JValue.obj gs)) = true := by
  simp only [extract_text_codex, pyGet, bind, Except.bind, pure, Except.pure]
  split
  · split <;> rfl
  · rfl

/-- Counterexample to C2 as stated: for each known provider there is a
successfully decoded line on which the extraction function raises
(AttributeError from `.get` on a non-dict payload), including a decoded
line that is not a JSON object at all. -/
theorem C2_counterexample :
    (extract_claude_event_text (JValue.obj
        [("type", JValue.str "assistant"), ("message", JValue.str "hi")])
      = .error ())
    ∧ (extract_pi_event_text (JValue.obj
        [("type", JValue.str "message_end"), ("message", JValue.arr [])])
      = .error ())
    ∧ (extract_codex_event_text (JValue.obj
        [("type", JValue.str "item.completed"), ("item", JValue.str "x")])
      = .error ())
    ∧ (extract_claude_event_text (JValue.arr []) = .error ()) :=
  ⟨rfl, rfl, rfl, rfl⟩

/-- C2 (amended): for every known provider, extraction never raises on a
decoded line that is a JSON object whose `message`/`item` payload (when
consulted) is itself an object: missing fields and ill-typed leaf fields
(role, content, text, blocks) yield "no text" without raising. A
non-object decoded line, or a non-object `message`/`item` value reached
on the qualifying event type, raises an attribute error instead. -/
theorem C2_extraction_no_raise_on_object_payloads (fs : List (String × JValue)) :
    ((((fs.lookup "message").getD (JValue.obj [])).isObj = true) →
      isOkE (extract_claude_event_text (JValue.obj fs)) = true)
    ∧ ((((fs.lookup "message").getD (JValue.obj [])).isObj = true) →
      isOkE (extract_pi_event_text (JValue.obj fs)) = true)
    ∧ ((((fs.lookup "item").getD (JValue.obj [])).isObj = true) →
      isOkE (extract_codex_event_text (JValue.obj fs)) = true) := by
  refine ⟨?_, ?_, ?_⟩
  · intro hm
    obtain ⟨gs, hgs⟩ := isObj_exists _ hm
    simp only [extract_claude_event_text, extract_text_claude, pyGet, pyGetD,
      bind, Except.bind, pure, Except.pure, hgs]
    split
    · rfl
    · exact extract_text_from_message_isOk gs none
  · intro hm
    obtain ⟨gs, hgs⟩ := isObj_exists _ hm
    simp only [extract_pi_event_text, extract_text_pi_message, pyGet, pyGetD,
      bind, Except.bind, pure, Except.pure, hgs]
    split
    · rfl
    · exact extract_text_from_message_isOk gs (some "assistant")
  · intro hi
    obtain ⟨gs, hgs⟩ := isObj_exists _ hi
    simp only [extract_codex_event_text, pyGet, pyGetD, bind, Except.bind,
      pure, Except.pure, hgs]
    split
    · rfl
    · rcases hb : is_codex_assistant_item (JValue.obj gs) with u | b
      · have hok := is_codex_assistant_item_isOk gs
        rw [hb] at hok
        exact absurd hok (by simp [isOkE])
      · dsimp only
        split
        · rfl
        · exact extract_text_codex_isOk gs

/-- Witness for the amended C2 at concrete object-shaped events. -/
theorem C2_extraction_no_raise_on_object_payloads_witness :
    isOkE (extract_claude_event_text (JValue.obj
      [("type", JValue.str "assistant"),
       ("message", JValue.obj [("content", JValue.str "hello")])])) = true
    ∧ isOkE (extract_codex_event_text (JValue.obj
      [("type", JValue.str "item.completed"), ("item", JValue.obj [])])) = true := by
  have h1 := C2_extraction_no_raise_on_object_payloads
    [("type", JValue.str "assistant"),
     ("message", JValue.obj [("content", JValue.str "hello")])]
  have h2 := C2_extraction_no_raise_on_object_payloads
    [("type", JValue.str "item.completed"), ("item", JValue.obj [])]
  exact ⟨h1.1 rfl, h2.2.2 rfl⟩

/-- A successful line dispatch appends exactly the §4.1 contribution of
that line to the audit log. -/
theorem processLine_ok_raw_log (cfg : ProviderConfig) (promise : String)
    (st : ParserState) (l : InputLine) (st1 : ParserState)
    (h : processLine cfg promise true st l = .ok st1) :
    st1.raw_log = st.raw_log ++ expectedAudit cfg [l] := by
  cases l with
  | malformed raw =>
    have haud : expectedAudit cfg [.malformed raw] = [raw] := by
      simp [expectedAudit]
    rw [haud]
    simp only [processLine] at h
    have htee : (teeMalformed true st raw).raw_log = st.raw_log ++ [raw] := by
      simp [teeMalformed]
    split at h
    · injection h with he
      subst he
      rw [record_completion_raw_log, htee]
    · injection h with he
      subst he
      exact htee
  | decoded raw obj =>
    simp only [processLine] at h
    rcases hA : auditStep cfg true st raw obj with u | stA
    · rw [hA] at h
      exact absurd h (by simp)
    · rw [hA] at h
      dsimp only at h
      rcases hE : cfg.extract_text obj with u | ex
      · rw [hE] at h
        exact absurd h (by simp)
      · rw [hE] at h
        dsimp only at h
        injection h with he
        subst he
        rw [handle_raw_log]
        simp only [auditStep] at hA
        rw [if_pos trivial] at hA
        rcases hT : pyGetD obj "type" (.str "") with u | et
        · rw [hT] at hA
          exact absurd hA (by simp)
        · rw [hT] at hA
          dsimp only at hA
          have haud : expectedAudit cfg [.decoded raw obj]
              = if cfg.skip_event_types.any (fun s => et.isStrEq s) then []
                else [raw] := by
            simp only [expectedAudit, List.filterMap_cons, List.filterMap_nil]
            rw [hT]
            dsimp only
            by_cases hc : (cfg.skip_event_types.any fun s => et.isStrEq s) = true
            · rw [if_pos hc, if_pos hc]
            · rw [if_neg hc, if_neg hc]
          rw [haud]
          split at hA
          · injection hA with he2
            subst he2
            rename_i hsk
            rw [if_pos hsk]
            simp
          · injection hA with he2
            subst he2
            rename_i hsk
            rw [if_neg hsk]

/-- Counterexample to C8 as stated: with the audit log on, a decoded line
that is not a JSON object raises inside the tee before writing, the loop
aborts, and the following malformed (non-JSON) line — which the claim
says is always appended — never reaches the audit log, which stays
empty. -/
theorem C8_counterexample :
    ((runLines claudeProvider defaultPromise true initState
        [.decoded "[0]" (JValue.arr [JValue.num 0]),
         .malformed "x <promise>DONE</promise>\n"]).1.raw_log = [])
    ∧ ((runLines claudeProvider defaultPromise true initState
        [.decoded "[0]" (JValue.arr [JValue.num 0]),
         .malformed "x <promise>DONE</promise>\n"]).2 = true) :=
  ⟨rfl, rfl⟩

/-- C8 (amended): when the audit log is open and no dispatch exception
aborts the loop, the audit log receives exactly the malformed lines and
the decoded lines whose event type is not in the provider's skip set,
verbatim and in arrival order; a decoded line with a skipped event type
is processed exactly as if the log were closed — omitted from the log but
still handed to the provider's extraction function. -/
theorem C8_audit_fidelity_without_abort (cfg : ProviderConfig) (promise : String) :
    (∀ (input : List InputLine) (st : ParserState),
      (runLines cfg promise true st input).2 = false →
      (runLines cfg promise true st input).1.raw_log
        = st.raw_log ++ expectedAudit cfg input)
    ∧ (∀ (st : ParserState) (raw : String) (gs : List (String × JValue)),
        cfg.skip_event_types.any
          (fun s => (((gs.lookup "type").getD (JValue.str "")).isStrEq s)) = true →
        processLine cfg promise true st (.decoded raw (JValue.obj gs))
          = processLine cfg promise false st (.decoded raw (JValue.obj gs))) := by
  constructor
  · intro input
    induction input with
    | nil =>
      intro st h
      simp [runLines, expectedAudit]
    | cons l rest ih =>
      intro st h
      have hsplit : expectedAudit cfg (l :: rest)
          = expectedAudit cfg [l] ++ expectedAudit cfg rest := by
        simp only [expectedAudit]
        rw [show l :: rest = [l] ++ rest from rfl]
        exact List.filterMap_append _ _ _
      simp only [runLines] at h ⊢
      cases hp : processLine cfg promise true st l with
      | error st1 =>
        rw [hp] at h
        simp at h
      | ok st1 =>
        rw [hp] at h
        dsimp only at h ⊢
        rw [ih st1 h, processLine_ok_raw_log cfg promise st l st1 hp, hsplit]
        rw [List.append_assoc]
  · intro st raw gs hskip
    simp only [processLine]
    have hA : auditStep cfg true st raw (JValue.obj gs) = .ok st := by
      simp only [auditStep, pyGetD]
      rw [if_pos trivial]
      rw [if_pos hskip]
    rw [hA]
    rfl

/-- Witness for the amended C8 with the codex provider: a short stream
with one skipped event, one kept event and one malformed line. -/
theorem C8_audit_fidelity_without_abort_witness :
    ((runLines codexProvider defaultPromise true initState
        [.decoded "L1" (JValue.obj [("type", JValue.str "item.updated")]),
         .decoded "L2" (JValue.obj [("type", JValue.str "other")]),
         .malformed "L3"]).1.raw_log
      = initState.raw_log ++ expectedAudit codexProvider
        [.decoded "L1" (JValue.obj [("type", JValue.str "item.updated")]),
         .decoded "L2" (JValue.obj [("type", JValue.str "other")]),
         .malformed "L3"])
    ∧ (processLine codexProvider defaultPromise true initState
        (.decoded "L1" (JValue.obj [("type", JValue.str "item.updated")]))
      = processLine codexProvider defaultPromise false initState
        (.decoded "L1" (JValue.obj [("type", JValue.str "item.updated")]))) := by
  have h := C8_audit_fidelity_without_abort codexProvider defaultPromise
  refine ⟨h.1 _ initState (by decide), h.2 initState "L1"
    [("type", JValue.str "item.updated")] (by decide)⟩

/-- The code's assistant-item test agrees with the spec's reading. -/
theorem is_codex_assistant_item_spec_eq (gs : List (String × JValue)) :
    is_codex_assistant_item (JValue.obj gs) = .ok (codexQualifiesSpec gs) := by
  simp only [is_codex_assistant_item, pyGet, bind, Except.bind, pure, Except.pure,
    codexQualifiesSpec, codexItemLevelType]
  repeat' split
  all_goals simp_all

/-- The code's per-block key loop agrees with the spec's reading. -/
theorem blockText_codex_spec_eq (fs : List (String × JValue)) :
    blockText fs ["text", "content"] = codexBlockTextSpec (JValue.obj fs) := by
  simp only [blockText, codexBlockTextSpec, List.findSome?_cons, List.findSome?_nil]
  rcases (fs.lookup "text").getD JValue.null with _ | _ | _ | v | _ | _ <;>
    rcases (fs.lookup "content").getD JValue.null with _ | _ | _ | w | _ | _ <;>
    simp only [blockText] <;>
    repeat' split
  all_goals simp_all

/-- The code's parts loop with no type filter is a filterMap of the
spec's per-block text. -/
theorem blocksParts_codex_spec_eq (blocks : List JValue) :
    blocksParts none ["text", "content"] blocks
      = blocks.filterMap codexBlockTextSpec := by
  induction blocks with
  | nil => rfl
  | cons b rest ih =>
    simp only [blocksParts, List.filterMap_cons]
    cases b with
    | obj fs =>
      simp only [blockAllowed, if_pos]
      rw [blockText_codex_spec_eq fs]
      cases h : codexBlockTextSpec (JValue.obj fs) with
      | none => simp [ih]
      | some t => simp [ih]
    | null => simp [codexBlockTextSpec, ih]
    | bool b => simp [codexBlockTextSpec, ih]
    | num n => simp [codexBlockTextSpec, ih]
    | str s => simp [codexBlockTextSpec, ih]
    | arr xs => simp [codexBlockTextSpec, ih]

/-- Codex content handling agrees with the spec's reading: a plain-string
content passes through, a block list joins with newlines. -/
theorem extract_blocks_codex_spec_eq (c : JValue) :
    extract_text_from_blocks c none ["text", "content"] = codexContentSpec c := by
  cases c with
  | arr blocks =>
    simp only [extract_text_from_blocks, codexContentSpec, blocksParts_codex_spec_eq,
      List.isEmpty_iff]
  | str s => rfl
  | null => rfl
  | bool b => rfl
  | num n => rfl
  | obj fs => rfl

/-- Codex item-text extraction agrees with the spec's reading. -/
theorem extract_text_codex_spec_eq (gs : List (String × JValue)) :
    extract_text_codex (JValue.obj gs) = .ok (codexTextSpec gs) := by
  simp only [extract_text_codex, pyGet, bind, Except.bind, pure, Except.pure,
    codexTextSpec]
  rcases (gs.lookup "text").getD JValue.null with _ | _ | _ | v | _ | _ <;>
    simp only [extract_blocks_codex_spec_eq] <;>
    repeat' split
  all_goals simp_all [extract_blocks_codex_spec_eq]

/-- C7: Codex extraction yields text exactly for "item.completed" events
whose (object-shaped) item is an assistant message per the spec's
item-level-type reading, and the yielded text is the direct non-blank
`text` field, else the newline-join of content-block texts read from a
`text` or `content` key with no block-type filter (all phrased by the
claim-side definitions `codexQualifiesSpec` / `codexTextSpec`). -/
theorem C7_codex_extraction_characterization (fs : List (String × JValue)) :
    ((¬ (((fs.lookup "type").getD JValue.null).isStrEq "item.completed" = true)) →
      extract_codex_event_text (JValue.obj fs) = .ok none)
    ∧ (∀ gs, ((fs.lookup "type").getD JValue.null).isStrEq "item.completed" = true →
        (fs.lookup "item").getD (JValue.obj []) = JValue.obj gs →
        extract_codex_event_text (JValue.obj fs)
          = .ok (if codexQualifiesSpec gs then codexTextSpec gs else none)) := by
  constructor
  · intro hty
    rw [Bool.not_eq_true] at hty
    simp only [extract_codex_event_text, pyGet, pyGetD, bind, Except.bind, pure,
      Except.pure]
    rw [if_pos (by simp [hty])]
  · intro gs hty hitem
    simp only [extract_codex_event_text, pyGet, pyGetD, bind, Except.bind, pure,
      Except.pure]
    rw [if_neg (by simp [hty]), hitem, is_codex_assistant_item_spec_eq gs]
    dsimp only
    by_cases hq : codexQualifiesSpec gs = true
    · rw [if_neg (by simp [hq])]
      rw [extract_text_codex_spec_eq gs]
      rw [if_pos hq]
    · have hqf : codexQualifiesSpec gs = false := by
        rw [Bool.not_eq_true] at hq
        exact hq
      rw [if_pos (by simp [hqf])]
      rw [if_neg hq]

/-- Witness for C7 at a non-qualifying event and a qualifying one. -/
theorem C7_codex_extraction_characterization_witness :
    extract_codex_event_text (JValue.obj [("type", JValue.str "other")]) = .ok none
    ∧ extract_codex_event_text (JValue.obj
        [("type", JValue.str "item.completed"),
         ("item", JValue.obj [("item_type", JValue.str "assistant_message"),
                              ("text", JValue.str "hello")])])
      = .ok (if codexQualifiesSpec
              [("item_type", JValue.str "assistant_message"),
               ("text", JValue.str "hello")]
            then codexTextSpec
              [("item_type", JValue.str "assistant_message"),
               ("text", JValue.str "hello")]
            else none) := by
  have h1 := C7_codex_extraction_characterization [("type", JValue.str "other")]
  have h2 := C7_codex_extraction_characterization
    [("type", JValue.str "item.completed"),
     ("item", JValue.obj [("item_type", JValue.str "assistant_message"),
                          ("text", JValue.str "hello")])]
  exact ⟨h1.1 (by decide), h2.2 _ (by decide) rfl⟩

/-- A block all of whose candidate text values are blank yields no text. -/
theorem blockText_none_of_blank (fs : List (String × JValue)) (keys : List String)
    (h : ∀ k ∈ keys, ∀ v, (fs.lookup k).getD JValue.null = JValue.str v →
      pyStrip v = "") :
    blockText fs keys = none := by
  induction keys with
  | nil => rfl
  | cons k rest ih =>
    have ihr : blockText fs rest = none :=
      ih (fun k2 hk2 v2 hv2 => h k2 (by simp [hk2]) v2 hv2)
    simp only [blockText]
    cases hv : (fs.lookup k).getD JValue.null with
    | str v =>
      have hblank := h k (by simp) v hv
      dsimp only
      rw [if_neg (by simp [hblank])]
      exact ihr
    | null => exact ihr
    | bool b => exact ihr
    | num n => exact ihr
    | arr xs => exact ihr
    | obj gs => exact ihr

/-- C10: every path that reads a `content` field returns a plain-string
content unchanged (no role/type/blankness filter applied to the string
itself) — at the block-extraction level and through the claude, pi and
codex item paths — and a block whose candidate text values are all empty
or whitespace-only contributes nothing to the joined parts. -/
theorem C10_string_content_passthrough :
    (∀ (s : String) (allowed : Option (List String)) (keys : List String),
      extract_text_from_blocks (JValue.str s) allowed keys = some s)
    ∧ (∀ (gs : List (String × JValue)) (s : String),
        (gs.lookup "content").getD JValue.null = JValue.str s →
        extract_text_from_message (JValue.obj gs) none = .ok (some s))
    ∧ (∀ (gs : List (String × JValue)) (s : String),
        (gs.lookup "role").getD JValue.null = JValue.str "assistant" →
        (gs.lookup "content").getD JValue.null = JValue.str s →
        extract_text_pi_message (JValue.obj gs) = .ok (some s))
    ∧ (∀ (gs : List (String × JValue)) (s : String),
        (gs.lookup "text").getD JValue.null = JValue.null →
        (gs.lookup "content").getD JValue.null = JValue.str s →
        extract_text_codex (JValue.obj gs) = .ok (some s))
    ∧ (∀ (fs : List (String × JValue)) (rest : List JValue)
          (allowed : Option (List String)) (keys : List String),
        (∀ k ∈ keys, ∀ v, (fs.lookup k).getD JValue.null = JValue.str v →
          pyStrip v = "") →
        blocksParts allowed keys (JValue.obj fs :: rest)
          = blocksParts allowed keys rest) := by
  refine ⟨?_, ?_, ?_, ?_, ?_⟩
  · intro s allowed keys
    rfl
  · intro gs s hcontent
    simp [extract_text_from_message, pyGet, bind, Except.bind, pure, Except.pure,
      hcontent, extract_text_from_blocks]
  · intro gs s hrole hcontent
    simp [extract_text_pi_message, extract_text_from_message, pyGet, bind,
      Except.bind, pure, Except.pure, hrole, hcontent, JValue.isStrEq,
      extract_text_from_blocks]
  · intro gs s htext hcontent
    simp [extract_text_codex, pyGet, bind, Except.bind, pure, Except.pure,
      htext, hcontent, extract_text_from_blocks]
  · intro fs rest allowed keys h
    simp only [blocksParts]
    rw [blockText_none_of_blank fs keys h]
    split <;> rfl

/-- Witness for C10: a whitespace-only string content is returned as-is,
and a whitespace-only text block contributes nothing next to a real one. -/
theorem C10_string_content_passthrough_witness :
    extract_text_from_blocks (JValue.str "  ") (some ["text"]) ["text"] = some "  "
    ∧ extract_text_from_message
        (JValue.obj [("content", JValue.str " hi ")]) none = .ok (some " hi ")
    ∧ blocksParts (some ["text"]) ["text"]
        [JValue.obj [("type", JValue.str "text"), ("text", JValue.str "   ")],
         JValue.obj [("type", JValue.str "text"), ("text", JValue.str "ok")]]
      = blocksParts (some ["text"]) ["text"]
        [JValue.obj [("type", JValue.str "text"), ("text", JValue.str "ok")]] := by
  have h := C10_string_content_passthrough
  refine ⟨h.1 "  " (some ["text"]) ["text"],
    h.2.1 [("content", JValue.str " hi ")] " hi " rfl,
    h.2.2.2.2 [("type", JValue.str "text"), ("text", JValue.str "   ")]
      [JValue.obj [("type", JValue.str "text"), ("text", JValue.str "ok")]]
      (some ["text"]) ["text"] ?_⟩
  intro k hk v hv
  simp at hk
  subst hk
  simp only [List.lookup] at hv
  simp at hv
  subst hv
  decide
